import Mathlib

/-!
Shallow embedding of `counter_data.py` (City of Austin trail-counter ETL).

The script pulls a device catalog and per-device `[timestamp, count]` readings
from the eco-counter vendor API, reshapes them, and upserts them into a Socrata
dataset.  Network and pandas operations are modelled explicitly:

* Python `str(n)` for a natural number is modelled by `natToString` (decimal,
  no leading zeros).
* A pandas `DataFrame` of readings is modelled as a `List` of row structures;
  `astype(int)` on a column with a null is modelled as an `Except.error`
  (pandas raises), and boolean-mask filtering as `List.filter`.
* The network is modelled as a function from request URL to decoded JSON
  payload; the run (`main`) returns the list of observable I/O events together
  with an optional fatal error.
* `datetime.strptime`/`strftime` are modelled character-by-character
  (`parseHuman`, `formatAPI`), and `datetime - timedelta(days=1)` by the
  civil-calendar predecessor `predDate` (UTC has no DST, so subtracting 24
  hours moves a civil datetime to the previous calendar day, same time).
-/

set_option maxRecDepth 20000

namespace CounterData

/-! ### Decimal digits and Python `str(int)` -/

/-- The ASCII digit character for `n % 10` (codepoint 48 is '0'). -/
def digitChar (n : Nat) : Char := Char.ofNat (48 + n % 10)

/-- Numeric value of an ASCII digit character, `none` otherwise. -/
def digitVal (c : Char) : Option Nat :=
  if 48 ≤ c.toNat ∧ c.toNat ≤ 57 then some (c.toNat - 48) else none

/-- Digit value as a total function (non-digits map to 0); used only in proofs. -/
def dvalN (c : Char) : Nat := (digitVal c).getD 0

/-- Fuel-based decimal rendering, most significant digit first; the fuel
`n + 1` always suffices since `n / 10` strictly decreases. -/
def decDigitsCore : Nat → Nat → List Char → List Char
  | 0, _, acc => acc
  | fuel + 1, n, acc =>
    if n < 10 then digitChar n :: acc
    else decDigitsCore fuel (n / 10) (digitChar (n % 10) :: acc)

/-- Model of Python `str(n)` for a non-negative integer `n`. -/
def natToString (n : Nat) : String := ⟨decDigitsCore (n + 1) n []⟩

/-! ### Calendar dates -/

structure Date where
  year : Nat
  month : Nat
  day : Nat
deriving DecidableEq

/-- Gregorian leap-year rule (as in Python's `datetime`). -/
def isLeapYear (y : Nat) : Bool :=
  (y % 4 == 0 && y % 100 != 0) || y % 400 == 0

def daysInMonth (y m : Nat) : Nat :=
  if m = 2 then (if isLeapYear y then 29 else 28)
  else if m = 4 ∨ m = 6 ∨ m = 9 ∨ m = 11 then 30
  else 31

/-- Validity as enforced by `datetime.strptime` (`MINYEAR = 1`, `MAXYEAR = 9999`,
day checked against the month length). -/
def isValidDate (y m d : Nat) : Bool :=
  1 ≤ y && y ≤ 9999 && 1 ≤ m && m ≤ 12 && 1 ≤ d && d ≤ daysInMonth y m

def Date.isValid (d : Date) : Bool := isValidDate d.year d.month d.day

/-- Calendar successor of a date (used to state "is the day before"). -/
def nextDate (d : Date) : Date :=
  if d.day < daysInMonth d.year d.month then ⟨d.year, d.month, d.day + 1⟩
  else if d.month < 12 then ⟨d.year, d.month + 1, 1⟩
  else ⟨d.year + 1, 1, 1⟩

/-- Calendar predecessor: the date part of `dt - timedelta(days=1)` for a UTC
civil datetime `dt` (time of day is unchanged by the subtraction and is ignored
by the `%d/%m/%Y` rendering). -/
def predDate (d : Date) : Date :=
  if 1 < d.day then ⟨d.year, d.month, d.day - 1⟩
  else if 1 < d.month then ⟨d.year, d.month - 1, daysInMonth d.year (d.month - 1)⟩
  else ⟨d.year - 1, 12, 31⟩

/-! ### strptime / strftime -/

/-- Two-digit zero-padded field (`%d`, `%m`); arguments stay below 100. -/
def pad2 (n : Nat) : List Char := [digitChar (n / 10), digitChar (n % 10)]

/-- Four-digit zero-padded field (`%Y`); arguments stay below 10000. -/
def pad4 (n : Nat) : List Char :=
  [digitChar (n / 1000), digitChar (n / 100 % 10), digitChar (n / 10 % 10), digitChar (n % 10)]

/-- Model of `strftime("%d/%m/%Y")` (the vendor API date format, `DATE_FORMAT_API`). -/
def formatAPI (d : Date) : String :=
  ⟨pad2 d.day ++ '/' :: pad2 d.month ++ '/' :: pad4 d.year⟩

/-- Final step of `strptime`: build the date if its fields are in range, else
raise (`none`). -/
def mkValidDate (y m d : Nat) : Option Date :=
  if isValidDate y m d then some ⟨y, m, d⟩ else none

/-- Model of `strptime(s, "%Y-%m-%d")` (`DATE_FORMAT_HUMANS`), on canonical zero-padded
input; `none` models the `ValueError` raised on malformed input. -/
def parseHuman (s : String) : Option Date :=
  match s.data with
  | [y1, y2, y3, y4, s1, m1, m2, s2, d1, d2] =>
    if s1 = '-' then
      if s2 = '-' then
        match digitVal y1, digitVal y2, digitVal y3, digitVal y4,
              digitVal m1, digitVal m2, digitVal d1, digitVal d2 with
        | some a, some b, some c, some d, some e, some f, some g, some h =>
          mkValidDate (a * 1000 + b * 100 + c * 10 + d) (e * 10 + f) (g * 10 + h)
        | _, _, _, _, _, _, _, _ => none
      else none
    else none
  | _ => none

/-- Decoder for the `DD/MM/YYYY` strings produced by `formatAPI`; used to state
"the returned string decodes to calendar date …". -/
def parseAPI (s : String) : Option Date :=
  match s.data with
  | [d1, d2, s1, m1, m2, s2, y1, y2, y3, y4] =>
    if s1 = '/' then
      if s2 = '/' then
        match digitVal d1, digitVal d2, digitVal m1, digitVal m2,
              digitVal y1, digitVal y2, digitVal y3, digitVal y4 with
        | some a, some b, some c, some d, some e, some f, some g, some h =>
          some ⟨e * 1000 + f * 100 + g * 10 + h, c * 10 + d, a * 10 + b⟩
        | _, _, _, _, _, _, _, _ => none
      else none
    else none
  | _ => none

/-! ### `handle_date_args` -/

/-- A UTC instant as `datetime.now(timezone.utc)` observes it: a civil calendar
date plus the number of seconds into that day. -/
structure Instant where
  date : Date
  secondsOfDay : Nat
deriving DecidableEq

/-- Model of `handle_date_args(start_string, end_string)`, with the current UTC instant
made an explicit argument.  `none` models the uncaught `ValueError` from
`strptime`.  When a CLI string is given it is parsed with `%Y-%m-%d`; when
absent, the start defaults to `now - timedelta(days=1)` and the end to `now`.
Both results are rendered with `strftime("%d/%m/%Y")`, which reads only the
date part of the datetime. -/
def handle_date_args (start_string end_string : Option String) (now : Instant) :
    Option (String × String) := do
  let start_date ← match start_string with
    | some s => parseHuman s
    | none => some (predDate now.date)
  let end_date ← match end_string with
    | some s => parseHuman s
    | none => some now.date
  return (formatAPI start_date, formatAPI end_date)

/-! ### Devices and readings -/

/-- A device object from the catalog endpoint.  Only the fields the script
reads are modelled: `idPdc` (numeric id), `nom` (display name), `lat`/`lon`
(carried opaquely as their raw JSON number tokens; the script never computes
with them), and `pratique` (the related sub-devices, of which only the numeric
`id` of each entry is read). -/
structure Device where
  idPdc : Nat
  nom : String
  lat : String
  lon : String
  pratique : List Nat
deriving DecidableEq

/-- One decoded element of the readings response: a `[timestamp, count]` pair,
where the count may be JSON `null`. -/
abbrev RawRow := String × Option Int

/-- One row of the transformed per-device `DataFrame` built by
`get_count_data`. -/
structure Reading where
  date : String
  count : Int
  sensorId : Nat
  sensorName : String
  recordId : String
deriving DecidableEq

/-- Model of `"Record ID" = str(mainid) + device_df["Date"]` (line 121). -/
def recordId (sensorId : Nat) (rawDate : String) : String :=
  natToString sensorId ++ rawDate

/-- Model of `device_df["Count"].astype(int)` on one cell: a null count raises
(pandas cannot cast `None`/`NaN` to int). -/
def coerceRow : RawRow → Except String (String × Int)
  | (t, some c) => .ok (t, c)
  | (_, none) => .error "int() argument must not be null"

/-- Builds one transformed `Reading` from an already-coerced row. -/
def mkReading (device : Device) (r : String × Int) : Reading :=
  { date := r.1, count := r.2, sensorId := device.idPdc,
    sensorName := device.nom, recordId := recordId device.idPdc r.1 }

/-- Model of `device_df["Count"].astype(int)` over the whole column (line 117): the
first uncastable cell raises and the whole cast fails. -/
def coerceAll : List RawRow → Except String (List (String × Int))
  | [] => .ok []
  | r :: rest =>
    match coerceRow r with
    | .error e => .error e
    | .ok v =>
      match coerceAll rest with
      | .error e => .error e
      | .ok vs => .ok (v :: vs)

/-- The transform half of `get_count_data` (lines 111-124), applied to the
decoded JSON body `count_data`.  Mirrors the source order: empty check, rename,
`astype(int)` over the whole column, filter `Count > 0`, then attach
`Sensor ID`, `Sensor Name`, `Record ID`. -/
def get_count_data (device : Device) (count_data : List RawRow) :
    Except String (List Reading) :=
  if count_data.isEmpty then .ok []
  else
    match coerceAll count_data with
    | .error e => .error e
    | .ok typed => .ok ((typed.filter (fun r => 0 < r.2)).map (mkReading device))

/-- The fixed part of the readings-query URL (line 95), as an f-string over
`mainid`, `fin=end_date`, `debut=start_date`. -/
def baseUrl (mainid : Nat) (start_date end_date : String) : String :=
  "https://www.eco-visio.net/api/aladdin/1.0.0/pbl/publicwebpageplus/data/"
    ++ natToString mainid ++ "?idOrganisme=89&idPdc=" ++ natToString mainid
    ++ "&fin=" ++ end_date ++ "&debut=" ++ start_date ++ "&interval=4&flowIds="

/-- Python `url[: len(url) - 3]` (line 107): keep the first `len - 3`
characters. -/
def strTake (s : String) (n : Nat) : String := ⟨s.data.take n⟩

/-- The URL-construction half of `get_count_data` (lines 90-107): append
`f"{flowid}%3B"` for every entry of `device["pratique"]`, then cut the last
three characters. -/
def buildUrl (device : Device) (start_date end_date : String) : String :=
  let url := device.pratique.foldl
    (fun u flowid => u ++ (natToString flowid ++ "%3B"))
    (baseUrl device.idPdc start_date end_date)
  strTake url (url.length - 3)

/-- Claim-side rendering of "semicolon-separated (encoded as `%3B`), with no
trailing separator". -/
def joinSep : List String → String
  | [] => ""
  | [a] => a
  | a :: rest => a ++ "%3B" ++ joinSep rest

/-! ### Device-metadata publishing and the main run -/

/-- Projection of one catalog row by `publish_device_data` (lines 149-171):
columns `["idPdc", "lat", "lon", "nom"]` renamed to
`Sensor ID, Latitude, Longitude, Sensor Name`. -/
structure DeviceRecord where
  sensorId : Nat
  latitude : String
  longitude : String
  sensorName : String
deriving DecidableEq

/-- Model of `publish_device_data`: the table it would upsert into `DEVICE_DATASET`.
Note: `main` never calls this function (the `devices_data` frame built on
line 180 is unused). -/
def publish_device_data (device_data : List Device) : List DeviceRecord :=
  device_data.map (fun d => ⟨d.idPdc, d.lat, d.lon, d.nom⟩)

/-- Observable I/O events of one run, in order. -/
inductive Event where
  /-- Event for `requests.get(DEVICES_ENDPOINT)` (line 178). -/
  | catalogFetch
  /-- Event for `requests.get(url)` inside `get_count_data` (line 109). -/
  | readingFetch (url : String)
  /-- Event for `soda.upsert(COUNTERS_DATASET, …)` via `to_socrata` (line 147); carries
  the transformed rows (`to_socrata` re-renders the `Date` column to the
  Socrata timestamp format before the write; that re-rendering is not
  modelled, no claim concerns it). -/
  | readingsUpsert (rows : List Reading)
  /-- Event for `soda.upsert(DEVICE_DATASET, …)` (line 171). -/
  | deviceUpsert (rows : List DeviceRecord)
deriving DecidableEq

/-- The per-device loop of `main` (lines 184-187): build the URL, GET it,
transform; on a transform error the exception propagates and the run aborts;
otherwise upsert the table iff it is non-empty. -/
def runLoop (net : String → List RawRow) (start_date end_date : String) :
    List Device → List Event × Option String
  | [] => ([], none)
  | device :: rest =>
    let url := buildUrl device start_date end_date
    match get_count_data device (net url) with
    | .error e => ([Event.readingFetch url], some e)
    | .ok rows =>
      let here := if rows.isEmpty then [Event.readingFetch url]
        else [Event.readingFetch url, Event.readingsUpsert rows]
      let next := runLoop net start_date end_date rest
      (here ++ next.1, next.2)

/-- Model of `main(args)` (lines 173-187), with the network modelled as a function
`net` from URL to decoded JSON body and the current UTC instant explicit.
Returns the ordered event trace and the fatal error, if any.  The source
fetches the device catalog (line 178) before parsing the date arguments
(line 182); the Socrata client constructor on line 175 performs no I/O. -/
def runMain (argStart argEnd : Option String) (now : Instant)
    (catalog : List Device) (net : String → List RawRow) :
    List Event × Option String :=
  match handle_date_args argStart argEnd now with
  | none =>
    ([Event.catalogFetch], some "ValueError: time data does not match format")
  | some (start_date, end_date) =>
    let rest := runLoop net start_date end_date catalog
    (Event.catalogFetch :: rest.1, rest.2)

/-! ## Lemmas: decimal rendering -/

theorem digitVal_digitChar {n : Nat} (h : n < 10) : digitVal (digitChar n) = some n := by
  interval_cases n <;> rfl

theorem dvalN_digitChar {n : Nat} (h : n < 10) : dvalN (digitChar n) = n := by
  simp [dvalN, digitVal_digitChar h]

/-- Digit-string value with an accumulator, most significant digit first. -/
def valAux : Nat → List Char → Nat
  | a, [] => a
  | a, c :: cs => valAux (a * 10 + dvalN c) cs

theorem valAux_append (a : Nat) (xs ys : List Char) :
    valAux a (xs ++ ys) = valAux (valAux a xs) ys := by
  induction xs generalizing a with
  | nil => rfl
  | cons c cs ih => simp [valAux, ih]

theorem decDigitsCore_acc (fuel : Nat) : ∀ n acc,
    decDigitsCore fuel n acc = decDigitsCore fuel n [] ++ acc := by
  induction fuel with
  | zero => intro n acc; rfl
  | succ fuel ih =>
    intro n acc
    by_cases h : n < 10
    · simp [decDigitsCore, h]
    · simp only [decDigitsCore, if_neg h]
      rw [ih (n / 10) (digitChar (n % 10) :: acc), ih (n / 10) [digitChar (n % 10)]]
      simp

theorem decDigitsCore_fuel (f₁ : Nat) : ∀ f₂ n acc, n < f₁ → n < f₂ →
    decDigitsCore f₁ n acc = decDigitsCore f₂ n acc := by
  induction f₁ with
  | zero => omega
  | succ f₁ ih =>
    intro f₂ n acc h₁ h₂
    match f₂, h₂ with
    | f₂ + 1, _ =>
      by_cases h : n < 10
      · simp [decDigitsCore, h]
      · simp only [decDigitsCore, if_neg h]
        exact ih f₂ (n / 10) _ (by omega) (by omega)

theorem valAux_decDigits (n : Nat) : valAux 0 (decDigitsCore (n + 1) n []) = n := by
  induction n using Nat.strong_induction_on with
  | _ n ih =>
    by_cases h : n < 10
    · simp [decDigitsCore, h, valAux, dvalN_digitChar h]
    · have hdiv : n / 10 < n := Nat.div_lt_self (by omega) (by omega)
      simp only [decDigitsCore, if_neg h]
      rw [decDigitsCore_fuel n (n / 10 + 1) (n / 10) _ (by omega) (by omega),
        decDigitsCore_acc, valAux_append, ih (n / 10) hdiv]
      simp only [valAux]
      rw [dvalN_digitChar (Nat.mod_lt _ (by omega))]
      omega

theorem natToString_inj {m n : Nat} (h : natToString m = natToString n) : m = n := by
  have hd : decDigitsCore (m + 1) m [] = decDigitsCore (n + 1) n [] :=
    congrArg String.data h
  have := valAux_decDigits m
  rw [hd, valAux_decDigits n] at this
  omega

/-! ## Lemmas: calendar dates and date strings -/

theorem Date.year_mk (y m d : Nat) : (Date.mk y m d).year = y := rfl

theorem Date.month_mk (y m d : Nat) : (Date.mk y m d).month = m := rfl

theorem Date.day_mk (y m d : Nat) : (Date.mk y m d).day = d := rfl

theorem isValidDate_iff {y m d : Nat} :
    isValidDate y m d = true ↔
      1 ≤ y ∧ y ≤ 9999 ∧ 1 ≤ m ∧ m ≤ 12 ∧ 1 ≤ d ∧ d ≤ daysInMonth y m := by
  simp [isValidDate, Bool.and_eq_true, decide_eq_true_eq, and_assoc]

theorem daysInMonth_pos (y m : Nat) : 1 ≤ daysInMonth y m := by
  unfold daysInMonth
  split
  · split <;> omega
  · split <;> omega

theorem daysInMonth_le (y m : Nat) : daysInMonth y m ≤ 31 := by
  unfold daysInMonth
  split
  · split <;> omega
  · split <;> omega

theorem daysInMonth_twelve (y : Nat) : daysInMonth y 12 = 31 := by
  simp [daysInMonth]

theorem parseAPI_formatAPI {d : Date} (h : d.isValid = true) :
    parseAPI (formatAPI d) = some d := by
  rw [Date.isValid, isValidDate_iff] at h
  obtain ⟨hy1, hy2, hm1, hm2, hd1, hd2⟩ := h
  have hdm := daysInMonth_le d.year d.month
  have h1 : d.day / 10 < 10 := by omega
  have h2 : d.day % 10 < 10 := by omega
  have h3 : d.month / 10 < 10 := by omega
  have h4 : d.month % 10 < 10 := by omega
  have h5 : d.year / 1000 < 10 := by omega
  have h6 : d.year / 100 % 10 < 10 := by omega
  have h7 : d.year / 10 % 10 < 10 := by omega
  have h8 : d.year % 10 < 10 := by omega
  have e1 : d.year / 100 / 10 = d.year / 1000 := by
    rw [Nat.div_div_eq_div_mul]
  have e2 : d.year / 10 / 10 = d.year / 100 := by
    rw [Nat.div_div_eq_div_mul]
  simp only [formatAPI, pad2, pad4, parseAPI, List.cons_append, List.nil_append]
  rw [digitVal_digitChar h1, digitVal_digitChar h2, digitVal_digitChar h3,
    digitVal_digitChar h4, digitVal_digitChar h5, digitVal_digitChar h6,
    digitVal_digitChar h7, digitVal_digitChar h8]
  obtain ⟨y, m, dd⟩ := d
  simp only [Date.year_mk, Date.month_mk, Date.day_mk, eq_self_iff_true, if_true,
    Option.some.injEq, Date.mk.injEq]
    at hy1 hy2 hm1 hm2 hd1 hd2 e1 e2 h1 h2 h3 h4 h5 h6 h7 h8 ⊢
  omega

theorem mkValidDate_isValid {y m dd : Nat} {d : Date}
    (h : mkValidDate y m dd = some d) : d.isValid = true := by
  unfold mkValidDate at h
  split at h
  · rw [Option.some.injEq] at h
    subst h
    assumption
  · exact absurd h (by simp)

theorem parseHuman_isValid {s : String} {d : Date} (h : parseHuman s = some d) :
    d.isValid = true := by
  unfold parseHuman at h
  split at h
  · split at h
    · split at h
      · split at h
        · exact mkValidDate_isValid h
        · exact absurd h (by simp)
      · exact absurd h (by simp)
    · exact absurd h (by simp)
  · exact absurd h (by simp)

theorem predDate_isValid {d : Date} (h : d.isValid = true) (hy : 2 ≤ d.year) :
    (predDate d).isValid = true := by
  rw [Date.isValid, isValidDate_iff] at h
  obtain ⟨y, m, dd⟩ := d
  obtain ⟨hy1, hy2, hm1, hm2, hd1, hd2⟩ := h
  simp only [Date.year_mk, Date.month_mk, Date.day_mk] at hy1 hy2 hm1 hm2 hd1 hd2 hy
  rw [Date.isValid, isValidDate_iff]
  unfold predDate
  simp only [Date.year_mk, Date.month_mk, Date.day_mk]
  split
  · next hday =>
    simp only [Date.year_mk, Date.month_mk, Date.day_mk]
    exact ⟨by omega, by omega, by omega, by omega, by omega, by omega⟩
  · split
    · next hday hmon =>
      simp only [Date.year_mk, Date.month_mk, Date.day_mk]
      exact ⟨by omega, by omega, by omega, by omega, daysInMonth_pos _ _,
        Nat.le_refl _⟩
    · next hday hmon =>
      simp only [Date.year_mk, Date.month_mk, Date.day_mk]
      exact ⟨by omega, by omega, by omega, by omega, by omega,
        by rw [daysInMonth_twelve]⟩

theorem nextDate_predDate {d : Date} (h : d.isValid = true) (hy : 2 ≤ d.year) :
    nextDate (predDate d) = d := by
  rw [Date.isValid, isValidDate_iff] at h
  obtain ⟨y, m, dd⟩ := d
  obtain ⟨hy1, hy2, hm1, hm2, hd1, hd2⟩ := h
  simp only [Date.year_mk, Date.month_mk, Date.day_mk] at hy1 hy2 hm1 hm2 hd1 hd2 hy
  unfold predDate
  simp only [Date.year_mk, Date.month_mk, Date.day_mk]
  split
  · next hday =>
    unfold nextDate
    simp only [Date.year_mk, Date.month_mk, Date.day_mk]
    rw [if_pos (by omega), Date.mk.injEq]
    exact ⟨rfl, rfl, by omega⟩
  · split
    · next hday hmon =>
      unfold nextDate
      simp only [Date.year_mk, Date.month_mk, Date.day_mk]
      rw [if_neg (Nat.lt_irrefl _), if_pos (by omega), Date.mk.injEq]
      exact ⟨rfl, by omega, by omega⟩
    · next hday hmon =>
      unfold nextDate
      simp only [Date.year_mk, Date.month_mk, Date.day_mk, daysInMonth_twelve]
      rw [if_neg (by omega), if_neg (by omega), Date.mk.injEq]
      exact ⟨by omega, by omega, by omega⟩

/-! ## Lemmas: URL construction -/

theorem string_length_data (s : String) : s.length = s.data.length := rfl

theorem strTake_data (s : String) (n : Nat) : (strTake s n).data = s.data.take n := rfl

theorem strTake_append_three (x : String) :
    strTake (x ++ "%3B") ((x ++ "%3B").length - 3) = x := by
  apply String.ext
  rw [strTake_data, String.data_append, String.length_append]
  have h3 : ("%3B" : String).length = 3 := rfl
  have h : x.length + ("%3B" : String).length - 3 = x.data.length := by
    rw [string_length_data, h3]
    omega
  rw [h]
  exact List.take_left _ _

theorem foldl_flowIds : ∀ (l : List Nat) (u : String), l ≠ [] →
    l.foldl (fun u f => u ++ (natToString f ++ "%3B")) u
      = u ++ joinSep (l.map natToString) ++ "%3B" := by
  intro l
  induction l with
  | nil => intro u h; exact absurd rfl h
  | cons x rest ih =>
    intro u _
    match rest with
    | [] =>
      simp only [List.foldl, List.map, joinSep]
      rw [String.append_assoc]
    | y :: t =>
      have hne : y :: t ≠ [] := by simp
      simp only [List.foldl] at ih ⊢
      rw [ih (u ++ (natToString x ++ "%3B")) hne]
      simp only [List.map, joinSep]
      simp [String.append_assoc]

theorem buildUrl_join (device : Device) (sd ed : String)
    (h : device.pratique ≠ []) :
    buildUrl device sd ed =
      baseUrl device.idPdc sd ed ++ joinSep (device.pratique.map natToString) := by
  unfold buildUrl
  rw [foldl_flowIds _ _ h]
  exact strTake_append_three _

/-! ## Lemmas: the reading transform -/

theorem coerceRow_ok {x : RawRow} {v : String × Int} (h : coerceRow x = .ok v) :
    x = (v.1, some v.2) := by
  obtain ⟨t, oc⟩ := x
  cases oc with
  | none => exact absurd h (by simp [coerceRow])
  | some c =>
    simp only [coerceRow, Except.ok.injEq] at h
    rw [← h]

theorem coerceAll_map (l : List (String × Int)) :
    coerceAll (l.map (fun r => (r.1, some r.2))) = Except.ok l := by
  induction l with
  | nil => rfl
  | cons x rest ih =>
    simp only [List.map, coerceAll, coerceRow, ih]

theorem coerceAll_none {l : List RawRow}
    (hnull : ∃ t, (t, (none : Option Int)) ∈ l) :
    ∃ msg, coerceAll l = Except.error msg := by
  induction l with
  | nil => simp at hnull
  | cons x rest ih =>
    obtain ⟨t, ht⟩ := hnull
    rcases List.mem_cons.mp ht with h | h
    · refine ⟨"int() argument must not be null", ?_⟩
      rw [← h]
      simp [coerceAll, coerceRow]
    · cases hx : coerceRow x with
      | error e => exact ⟨e, by simp [coerceAll, hx]⟩
      | ok v =>
        obtain ⟨msg, hm⟩ := ih ⟨t, h⟩
        exact ⟨msg, by simp [coerceAll, hx, hm]⟩

theorem get_count_data_char {device : Device} {l : List RawRow}
    {typed : List (String × Int)} (h : coerceAll l = Except.ok typed) :
    get_count_data device l =
      Except.ok ((typed.filter (fun r => 0 < r.2)).map (mkReading device)) := by
  unfold get_count_data
  by_cases he : l = []
  · subst he
    simp only [coerceAll, Except.ok.injEq] at h
    subst h
    rfl
  · rw [if_neg (by simpa using he), h]

theorem get_count_data_error {device : Device} {l : List RawRow} {msg : String}
    (h : coerceAll l = Except.error msg) :
    get_count_data device l = Except.error msg := by
  unfold get_count_data
  have he : l ≠ [] := by
    intro hl
    subst hl
    simp [coerceAll] at h
  rw [if_neg (by simpa using he), h]

theorem coerceAll_mem_typed {l : List RawRow} : ∀ {typed : List (String × Int)},
    coerceAll l = .ok typed → ∀ p ∈ typed, (p.1, some p.2) ∈ l := by
  induction l with
  | nil =>
    intro typed h p hp
    simp only [coerceAll, Except.ok.injEq] at h
    subst h
    simp at hp
  | cons x rest ih =>
    intro typed h p hp
    rw [coerceAll] at h
    cases hx : coerceRow x with
    | error e => rw [hx] at h; exact absurd h (by simp)
    | ok v =>
      rw [hx] at h
      cases hrest : coerceAll rest with
      | error e => rw [hrest] at h; exact absurd h (by simp)
      | ok ts =>
        rw [hrest] at h
        simp only [Except.ok.injEq] at h
        subst h
        rcases List.mem_cons.mp hp with hpv | hpts
        · subst hpv
          exact List.mem_cons.mpr (Or.inl (coerceRow_ok hx).symm)
        · exact List.mem_cons.mpr (Or.inr (ih hrest p hpts))

theorem coerceAll_mem_raw {l : List RawRow} : ∀ {typed : List (String × Int)},
    coerceAll l = .ok typed →
    ∀ r ∈ l, ∃ c, r.2 = some c ∧ (r.1, c) ∈ typed := by
  induction l with
  | nil => intro typed _ r hr; simp at hr
  | cons x rest ih =>
    intro typed h r hr
    rw [coerceAll] at h
    cases hx : coerceRow x with
    | error e => rw [hx] at h; exact absurd h (by simp)
    | ok v =>
      rw [hx] at h
      cases hrest : coerceAll rest with
      | error e => rw [hrest] at h; exact absurd h (by simp)
      | ok ts =>
        rw [hrest] at h
        simp only [Except.ok.injEq] at h
        subst h
        rcases List.mem_cons.mp hr with hrx | hrr
        · subst hrx
          have hx' := coerceRow_ok hx
          exact ⟨v.2, by rw [hx'], by rw [hx']; exact List.mem_cons_self _ _⟩
        · obtain ⟨c, hc, hm⟩ := ih hrest r hrr
          exact ⟨c, hc, List.mem_cons.mpr (Or.inr hm)⟩

theorem get_count_data_ok_sensorId {device : Device} {l : List RawRow}
    {rows : List Reading} (h : get_count_data device l = .ok rows) :
    ∀ r ∈ rows, r.sensorId = device.idPdc := by
  intro r hr
  unfold get_count_data at h
  by_cases he : l = []
  · subst he
    simp only [List.isEmpty_nil, if_true, Except.ok.injEq] at h
    subst h
    simp at hr
  · rw [if_neg (by simpa using he)] at h
    cases hca : coerceAll l with
    | error e => rw [hca] at h; exact absurd h (by simp)
    | ok typed =>
      rw [hca] at h
      simp only [Except.ok.injEq] at h
      subst h
      obtain ⟨p, _, hp⟩ := List.mem_map.mp hr
      rw [← hp]
      rfl

/-! ## Lemmas: the main loop trace -/

theorem runLoop_nil (net : String → List RawRow) (sd ed : String) :
    runLoop net sd ed [] = ([], none) := rfl

theorem runLoop_cons_error {net : String → List RawRow} {sd ed : String}
    {d : Device} {rest : List Device} {e : String}
    (h : get_count_data d (net (buildUrl d sd ed)) = .error e) :
    runLoop net sd ed (d :: rest) =
      ([Event.readingFetch (buildUrl d sd ed)], some e) := by
  simp [runLoop, h]

theorem runLoop_cons_ok {net : String → List RawRow} {sd ed : String}
    {d : Device} {rest : List Device} {rows : List Reading}
    (h : get_count_data d (net (buildUrl d sd ed)) = .ok rows) :
    runLoop net sd ed (d :: rest) =
      ((if rows.isEmpty then [Event.readingFetch (buildUrl d sd ed)]
        else [Event.readingFetch (buildUrl d sd ed), Event.readingsUpsert rows])
        ++ (runLoop net sd ed rest).1, (runLoop net sd ed rest).2) := by
  simp [runLoop, h]

theorem runLoop_event_shape {net : String → List RawRow} {sd ed : String} :
    ∀ {devs : List Device} {e : Event}, e ∈ (runLoop net sd ed devs).1 →
      (∃ url, e = Event.readingFetch url) ∨
      (∃ rows, e = Event.readingsUpsert rows) := by
  intro devs
  induction devs with
  | nil => intro e h; rw [runLoop_nil] at h; simp at h
  | cons d rest ih =>
    intro e h
    cases hr : get_count_data d (net (buildUrl d sd ed)) with
    | error msg =>
      rw [runLoop_cons_error hr] at h
      rw [List.mem_singleton] at h
      exact Or.inl ⟨_, h⟩
    | ok rows0 =>
      rw [runLoop_cons_ok hr] at h
      rcases List.mem_append.mp h with h | h
      · by_cases he : rows0.isEmpty
        · rw [if_pos he, List.mem_singleton] at h
          exact Or.inl ⟨_, h⟩
        · rw [if_neg he] at h
          rcases List.mem_cons.mp h with h | h
          · exact Or.inl ⟨_, h⟩
          · rw [List.mem_singleton] at h
            exact Or.inr ⟨_, h⟩
      · exact ih h

theorem runLoop_upsert_mem {net : String → List RawRow} {sd ed : String} :
    ∀ {devs : List Device} {rows : List Reading},
      Event.readingsUpsert rows ∈ (runLoop net sd ed devs).1 →
      ∃ d ∈ devs, get_count_data d (net (buildUrl d sd ed)) = .ok rows ∧
        rows ≠ [] := by
  intro devs
  induction devs with
  | nil => intro rows h; rw [runLoop_nil] at h; simp at h
  | cons d rest ih =>
    intro rows h
    cases hr : get_count_data d (net (buildUrl d sd ed)) with
    | error msg =>
      rw [runLoop_cons_error hr] at h
      rw [List.mem_singleton] at h
      exact absurd h (by simp)
    | ok rows0 =>
      rw [runLoop_cons_ok hr] at h
      rcases List.mem_append.mp h with h | h
      · by_cases he : rows0.isEmpty
        · rw [if_pos he, List.mem_singleton] at h
          exact absurd h (by simp)
        · rw [if_neg he] at h
          rcases List.mem_cons.mp h with h | h
          · exact absurd h (by simp)
          · rw [List.mem_singleton, Event.readingsUpsert.injEq] at h
            subst h
            refine ⟨d, List.mem_cons_self _ _, hr, ?_⟩
            intro hnil
            rw [hnil] at he
            exact he rfl
      · obtain ⟨d', hd', hok, hne⟩ := ih h
        exact ⟨d', List.mem_cons.mpr (Or.inr hd'), hok, hne⟩

theorem runLoop_complete {net : String → List RawRow} {sd ed : String} :
    ∀ {devs : List Device}, (runLoop net sd ed devs).2 = none →
      ∀ d ∈ devs,
        ∃ rows, get_count_data d (net (buildUrl d sd ed)) = .ok rows ∧
          (rows ≠ [] →
            Event.readingsUpsert rows ∈ (runLoop net sd ed devs).1) := by
  intro devs
  induction devs with
  | nil => intro _ d hd; simp at hd
  | cons d0 rest ih =>
    intro h2 d hd
    cases hr : get_count_data d0 (net (buildUrl d0 sd ed)) with
    | error msg =>
      rw [runLoop_cons_error hr] at h2
      exact absurd h2 (by simp)
    | ok rows0 =>
      rw [runLoop_cons_ok hr] at h2
      rcases List.mem_cons.mp hd with hd0 | hdr
      · subst hd0
        refine ⟨rows0, hr, fun hne => ?_⟩
        rw [runLoop_cons_ok hr]
        apply List.mem_append.mpr
        left
        have he : rows0.isEmpty = false := by
          cases rows0 with
          | nil => exact absurd rfl hne
          | cons a l => rfl
        rw [he]
        simp
      · obtain ⟨rows, hok, himp⟩ := ih h2 d hdr
        refine ⟨rows, hok, fun hne => ?_⟩
        rw [runLoop_cons_ok hr]
        exact List.mem_append.mpr (Or.inr (himp hne))

theorem runMain_dates_none {argS argE : Option String} {now : Instant}
    {catalog : List Device} {net : String → List RawRow}
    (h : handle_date_args argS argE now = none) :
    runMain argS argE now catalog net =
      ([Event.catalogFetch],
        some "ValueError: time data does not match format") := by
  simp [runMain, h]

theorem runMain_dates_some {argS argE : Option String} {now : Instant}
    {catalog : List Device} {net : String → List RawRow} {sd ed : String}
    (h : handle_date_args argS argE now = some (sd, ed)) :
    runMain argS argE now catalog net =
      (Event.catalogFetch :: (runLoop net sd ed catalog).1,
        (runLoop net sd ed catalog).2) := by
  simp [runMain, h]

/-! ## Claim theorems -/

/-- C1: for every device and non-empty decoded reading list, the catalog-sync
transform returns exactly the rows with count strictly positive, each carrying
`Date` = the raw timestamp, `Count` = the decoded count, `Sensor ID` = the
device id, `Sensor Name` = the device name, and
`Record ID` = `str(id) ++ raw timestamp`; consequently every transformed row
has count > 0. -/
theorem c1_catalog_transform (device : Device) (ints : List (String × Int))
    (hne : ints ≠ []) :
    get_count_data device (ints.map (fun r => (r.1, some r.2))) =
      .ok ((ints.filter (fun r => 0 < r.2)).map (fun r =>
        ⟨r.1, r.2, device.idPdc, device.nom,
          natToString device.idPdc ++ r.1⟩)) ∧
    ∀ r ∈ (ints.filter (fun r => 0 < r.2)).map (fun r =>
        (⟨r.1, r.2, device.idPdc, device.nom,
          natToString device.idPdc ++ r.1⟩ : Reading)), 0 < r.count := by
  constructor
  · rw [get_count_data_char (coerceAll_map ints)]
    rfl
  · intro r hr
    obtain ⟨p, hpf, hpr⟩ := List.mem_map.mp hr
    have hpos := (List.mem_filter.mp hpf).2
    rw [← hpr]
    simpa using hpos

/-- Witness for C1 at the spec's own scenario (device 42 "Elm St", counts
5, 0, 3): the zero-count row is dropped and the two positive rows are kept
with their derived fields. -/
theorem c1_witness :
    (([("01/06/2022", (5 : Int)), ("01/06/2022", 0), ("02/06/2022", 3)] :
        List (String × Int)) ≠ []) ∧
    (get_count_data ⟨42, "Elm St", "30.26", "-97.73", []⟩
        (([("01/06/2022", (5 : Int)), ("01/06/2022", 0), ("02/06/2022", 3)] :
          List (String × Int)).map (fun r => (r.1, some r.2))) =
      .ok ((([("01/06/2022", (5 : Int)), ("01/06/2022", 0), ("02/06/2022", 3)] :
          List (String × Int)).filter (fun r => 0 < r.2)).map (fun r =>
        ⟨r.1, r.2, (42 : Nat), "Elm St", natToString 42 ++ r.1⟩)) ∧
    ∀ r ∈ (([("01/06/2022", (5 : Int)), ("01/06/2022", 0), ("02/06/2022", 3)] :
          List (String × Int)).filter (fun r => 0 < r.2)).map (fun r =>
        (⟨r.1, r.2, (42 : Nat), "Elm St", natToString 42 ++ r.1⟩ : Reading)),
      0 < r.count) :=
  ⟨by decide, c1_catalog_transform ⟨42, "Elm St", "30.26", "-97.73", []⟩ _ (by decide)⟩

/-- C2 fails at a device with zero linked flow ids: `url[: len(url) - 3]`
then cuts three characters out of the fixed query string instead of a trailing
separator, so the result is not the base URL with an empty `flowIds` value. -/
theorem c2_counterexample :
    buildUrl ⟨100, "Lance Armstrong Bikeway", "30.26", "-97.73", []⟩
        "01/06/2022" "02/06/2022" ≠
      baseUrl 100 "01/06/2022" "02/06/2022" ++
        joinSep (([] : List Nat).map natToString) := by
  decide

/-- C2 (amended): for every device with at least one linked flow id, the
reading-query URL is exactly the base URL (organisation id, device id, end
date, start date, interval code intact) followed by the semicolon-separated
(`%3B`-encoded) flow ids with no trailing separator.  (With zero flow ids the
code instead truncates the last three characters of the base URL.) -/
theorem c2_flow_ids_amended (device : Device) (sd ed : String)
    (h : device.pratique ≠ []) :
    buildUrl device sd ed =
      baseUrl device.idPdc sd ed ++
        joinSep (device.pratique.map natToString) :=
  buildUrl_join device sd ed h

/-- Witness for C2 (amended) at a device with two flow ids. -/
theorem c2_witness :
    ((⟨100, "Lance Armstrong Bikeway", "30.26", "-97.73", [101, 102]⟩ :
        Device).pratique ≠ []) ∧
    buildUrl ⟨100, "Lance Armstrong Bikeway", "30.26", "-97.73", [101, 102]⟩
        "01/06/2022" "02/06/2022" =
      baseUrl 100 "01/06/2022" "02/06/2022" ++
        joinSep ([101, 102].map natToString) :=
  ⟨by decide,
    c2_flow_ids_amended ⟨100, "Lance Armstrong Bikeway", "30.26", "-97.73",
      [101, 102]⟩ "01/06/2022" "02/06/2022" (by decide)⟩

/-- C5 fails: `str(id) ++ timestamp` is not injective on (id, timestamp)
pairs — device 1 at "21/06/2022" and device 12 at "1/06/2022" collide on
record id "121/06/2022". -/
theorem c5_counterexample :
    recordId 1 "21/06/2022" = recordId 12 "1/06/2022" ∧
    ((1 : Nat), "21/06/2022") ≠ ((12 : Nat), "1/06/2022") := by
  constructor
  · decide
  · decide

/-- C5 (amended): the record-id map is injective on pairs whose raw timestamp
strings have equal length (as is the case for the vendor's fixed-width
`DD/MM/YYYY` timestamps). -/
theorem c5_record_id_injective_amended (id1 id2 : Nat) (ts1 ts2 : String)
    (hlen : ts1.length = ts2.length)
    (h : recordId id1 ts1 = recordId id2 ts2) : id1 = id2 ∧ ts1 = ts2 := by
  unfold recordId at h
  have hdata : (natToString id1).data ++ ts1.data =
      (natToString id2).data ++ ts2.data := by
    have hd := congrArg String.data h
    simpa [String.data_append] using hd
  have hl : ts1.data.length = ts2.data.length := by
    rw [← string_length_data, ← string_length_data]
    exact hlen
  obtain ⟨h1, h2⟩ := List.append_inj' hdata hl
  exact ⟨natToString_inj (String.ext h1), String.ext h2⟩

/-- Witness for C5 (amended) at equal-length `DD/MM/YYYY` timestamps. -/
theorem c5_witness :
    (("21/06/2022" : String).length = ("22/06/2022" : String).length ∧
      recordId 7 "21/06/2022" = recordId 7 "21/06/2022") ∧
    ((7 : Nat) = 7 ∧ ("21/06/2022" : String) = "21/06/2022") :=
  ⟨⟨by decide, rfl⟩,
    c5_record_id_injective_amended 7 7 "21/06/2022" "21/06/2022" (by decide) rfl⟩

/-- C9: in catalog-sync mode, a non-empty reading list containing a row whose
count cannot be cast to int (a null) makes the transform raise rather than
return a table; the cast runs before the positivity filter, so even a row the
filter would drop causes the failure. -/
theorem c9_null_count_raises (device : Device) (count_data : List RawRow)
    (hne : count_data ≠ [])
    (hnull : ∃ t, (t, (none : Option Int)) ∈ count_data) :
    ∃ msg, get_count_data device count_data = .error msg := by
  obtain ⟨msg, hm⟩ := coerceAll_none hnull
  exact ⟨msg, get_count_data_error hm⟩

/-- Witness for C9: one positive row plus one null-count row. -/
theorem c9_witness :
    (([("01/06/2022", some (5 : Int)), ("02/06/2022", none)] : List RawRow) ≠ [] ∧
      ∃ t, (t, (none : Option Int)) ∈
        ([("01/06/2022", some (5 : Int)), ("02/06/2022", none)] : List RawRow)) ∧
    ∃ msg, get_count_data ⟨42, "Elm St", "30.26", "-97.73", []⟩
        [("01/06/2022", some (5 : Int)), ("02/06/2022", none)] =
      .error msg :=
  ⟨⟨by decide, ⟨"02/06/2022", by decide⟩⟩,
    c9_null_count_raises ⟨42, "Elm St", "30.26", "-97.73", []⟩ _ (by decide)
      ⟨"02/06/2022", by decide⟩⟩

/-- C3 (code bug): `publish_device_data` would project the catalog into
`{Sensor ID, Latitude, Longitude, Sensor Name}`, but `main` never calls it —
no run ever emits an upsert to the devices dataset.  (The `devices_data`
frame built on line 180 is never used.) -/
theorem c3_no_device_upsert (argS argE : Option String) (now : Instant)
    (catalog : List Device) (net : String → List RawRow)
    (rs : List DeviceRecord) :
    Event.deviceUpsert rs ∉ (runMain argS argE now catalog net).1 ∧
    publish_device_data catalog =
      catalog.map (fun d => ⟨d.idPdc, d.lat, d.lon, d.nom⟩) := by
  constructor
  · intro hmem
    cases hd : handle_date_args argS argE now with
    | none =>
      rw [runMain_dates_none hd] at hmem
      rw [List.mem_singleton] at hmem
      exact absurd hmem (by simp)
    | some p =>
      obtain ⟨sd, ed⟩ := p
      rw [runMain_dates_some hd] at hmem
      rcases List.mem_cons.mp hmem with h | h
      · exact absurd h (by simp)
      · rcases runLoop_event_shape h with ⟨url, he⟩ | ⟨rows, he⟩ <;> simp at he
  · rfl

/-- C4 fails as stated: with a malformed `--start` the run does abort on the
parse failure, but only after the device-catalog endpoint has already been
contacted (`main` fetches the catalog on line 178 before calling
`handle_date_args` on line 182). -/
theorem c4_counterexample :
    parseHuman "06/01/2022" = none ∧
    Event.catalogFetch ∈
      (runMain (some "06/01/2022") none ⟨⟨2022, 6, 5⟩, 0⟩
        [⟨42, "Elm St", "30.26", "-97.73", [7]⟩] (fun _ => [])).1 ∧
    (runMain (some "06/01/2022") none ⟨⟨2022, 6, 5⟩, 0⟩
        [⟨42, "Elm St", "30.26", "-97.73", [7]⟩] (fun _ => [])).2.isSome
      = true := by
  refine ⟨?_, ?_, ?_⟩ <;> decide

/-- C4 (amended): a malformed start or end date string aborts the run with a
parse failure after the single device-catalog request but before any
per-device readings request and before any upsert: the event trace is exactly
`[catalogFetch]` and the run ends in an error. -/
theorem c4_abort_amended (argS argE : Option String) (now : Instant)
    (catalog : List Device) (net : String → List RawRow)
    (hbad : (∃ s, argS = some s ∧ parseHuman s = none) ∨
            (∃ s, argE = some s ∧ parseHuman s = none)) :
    (runMain argS argE now catalog net).1 = [Event.catalogFetch] ∧
    (runMain argS argE now catalog net).2.isSome = true := by
  have hd : handle_date_args argS argE now = none := by
    rcases hbad with ⟨s, ha, hp⟩ | ⟨s, ha, hp⟩
    · subst ha
      simp [handle_date_args, hp]
    · subst ha
      cases argS with
      | none => simp [handle_date_args, hp]
      | some s' =>
        cases hp' : parseHuman s' with
        | none => simp [handle_date_args, hp']
        | some d => simp [handle_date_args, hp', hp]
  rw [runMain_dates_none hd]
  exact ⟨rfl, rfl⟩

/-- Witness for C4 (amended) at the malformed start string "06/01/2022". -/
theorem c4_witness :
    ((∃ s, (some "06/01/2022" : Option String) = some s ∧ parseHuman s = none) ∨
      (∃ s, (none : Option String) = some s ∧ parseHuman s = none)) ∧
    ((runMain (some "06/01/2022") none ⟨⟨2022, 6, 5⟩, 0⟩
        [⟨42, "Elm St", "30.26", "-97.73", [7]⟩] (fun _ => [])).1 =
      [Event.catalogFetch] ∧
    (runMain (some "06/01/2022") none ⟨⟨2022, 6, 5⟩, 0⟩
        [⟨42, "Elm St", "30.26", "-97.73", [7]⟩] (fun _ => [])).2.isSome
      = true) :=
  ⟨Or.inl ⟨"06/01/2022", rfl, by decide⟩,
    c4_abort_amended _ _ _ _ _ (Or.inl ⟨"06/01/2022", rfl, by decide⟩)⟩

/-- C6: for explicitly given parseable `YYYY-MM-DD` start and end strings,
`handle_date_args` re-renders the same two calendar dates in `DD/MM/YYYY`
form, for every current instant (so independent of time of day), and with no
ordering check between the two dates (no ordering hypothesis is needed). -/
theorem c6_explicit_dates (s e : String) (d1 d2 : Date) (now : Instant)
    (hs : parseHuman s = some d1) (he : parseHuman e = some d2) :
    handle_date_args (some s) (some e) now =
      some (formatAPI d1, formatAPI d2) ∧
    parseAPI (formatAPI d1) = some d1 ∧ parseAPI (formatAPI d2) = some d2 := by
  refine ⟨?_, parseAPI_formatAPI (parseHuman_isValid hs),
    parseAPI_formatAPI (parseHuman_isValid he)⟩
  simp [handle_date_args, hs, he]

/-- Witness for C6 at an inverted range (start after end): the pair is
returned without any error. -/
theorem c6_witness :
    (parseHuman "2022-06-02" = some ⟨2022, 6, 2⟩ ∧
      parseHuman "2022-06-01" = some ⟨2022, 6, 1⟩) ∧
    (handle_date_args (some "2022-06-02") (some "2022-06-01")
        ⟨⟨2030, 1, 1⟩, 123⟩ =
      some (formatAPI ⟨2022, 6, 2⟩, formatAPI ⟨2022, 6, 1⟩) ∧
    parseAPI (formatAPI ⟨2022, 6, 2⟩) = some ⟨2022, 6, 2⟩ ∧
    parseAPI (formatAPI ⟨2022, 6, 1⟩) = some ⟨2022, 6, 1⟩) :=
  ⟨⟨by decide, by decide⟩,
    c6_explicit_dates "2022-06-02" "2022-06-01" ⟨2022, 6, 2⟩ ⟨2022, 6, 1⟩
      ⟨⟨2030, 1, 1⟩, 123⟩ (by decide) (by decide)⟩

/-- C7: with no date arguments, `handle_date_args` renders, in `DD/MM/YYYY`
form, exactly the day before the current UTC date (the date part of
`now - 24h`) as start and the current UTC date as end; the start decodes to a
date whose calendar successor is the end date. -/
theorem c7_default_dates (now : Instant) (hv : now.date.isValid = true)
    (hy : 2 ≤ now.date.year) :
    handle_date_args none none now =
      some (formatAPI (predDate now.date), formatAPI now.date) ∧
    parseAPI (formatAPI (predDate now.date)) = some (predDate now.date) ∧
    parseAPI (formatAPI now.date) = some now.date ∧
    nextDate (predDate now.date) = now.date :=
  ⟨rfl, parseAPI_formatAPI (predDate_isValid hv hy), parseAPI_formatAPI hv,
    nextDate_predDate hv hy⟩

/-- Witness for C7 at 2022-03-01 noon UTC (a month boundary: the day before
is 28/02/2022). -/
theorem c7_witness :
    ((⟨⟨2022, 3, 1⟩, 43200⟩ : Instant).date.isValid = true ∧
      2 ≤ (⟨⟨2022, 3, 1⟩, 43200⟩ : Instant).date.year) ∧
    (handle_date_args none none ⟨⟨2022, 3, 1⟩, 43200⟩ =
      some (formatAPI (predDate ⟨2022, 3, 1⟩), formatAPI ⟨2022, 3, 1⟩) ∧
    parseAPI (formatAPI (predDate ⟨2022, 3, 1⟩)) = some (predDate ⟨2022, 3, 1⟩) ∧
    parseAPI (formatAPI ⟨2022, 3, 1⟩) = some ⟨2022, 3, 1⟩ ∧
    nextDate (predDate ⟨2022, 3, 1⟩) = ⟨2022, 3, 1⟩) :=
  ⟨⟨by decide, by decide⟩,
    c7_default_dates ⟨⟨2022, 3, 1⟩, 43200⟩ (by decide) (by decide)⟩

/-- C8: a catalogued device whose decoded reading response is empty yields an
empty table without error, and the run performs no readings upsert containing
a row with that device's sensor id (device ids taken pairwise distinct, per
the spec's invariant that `sensor_id` matches exactly one device). -/
theorem c8_empty_response_skips_upsert (argS argE : Option String)
    (now : Instant) (catalog : List Device) (net : String → List RawRow)
    (d : Device) (sd ed : String)
    (hnodup : (catalog.map Device.idPdc).Nodup)
    (hdates : handle_date_args argS argE now = some (sd, ed))
    (hmem : d ∈ catalog)
    (hresp : net (buildUrl d sd ed) = []) :
    get_count_data d (net (buildUrl d sd ed)) = .ok [] ∧
    ∀ rows, Event.readingsUpsert rows ∈ (runMain argS argE now catalog net).1 →
      ∀ r ∈ rows, r.sensorId ≠ d.idPdc := by
  constructor
  · rw [hresp]
    rfl
  · intro rows hmem' r hr
    rw [runMain_dates_some hdates] at hmem'
    rcases List.mem_cons.mp hmem' with h | h
    · exact absurd h (by simp)
    · obtain ⟨d', hd', hok, hne⟩ := runLoop_upsert_mem h
      have hsid := get_count_data_ok_sensorId hok r hr
      rw [hsid]
      intro heq
      have hdd : d' = d := List.inj_on_of_nodup_map hnodup hd' hmem heq
      subst hdd
      rw [hresp] at hok
      have h0 : get_count_data d' [] = Except.ok ([] : List Reading) := rfl
      rw [h0] at hok
      rw [Except.ok.injEq] at hok
      exact hne hok.symm

/-- Witness for C8: a one-device catalog whose readings response is empty —
the transform returns the empty table and the trace has no readings upsert
with that sensor id. -/
theorem c8_witness :
    (((([⟨42, "Elm St", "30.26", "-97.73", [7]⟩] : List Device).map
        Device.idPdc).Nodup) ∧
      handle_date_args (some "2022-06-01") (some "2022-06-02")
        ⟨⟨2030, 1, 1⟩, 0⟩ = some ("01/06/2022", "02/06/2022") ∧
      (⟨42, "Elm St", "30.26", "-97.73", [7]⟩ : Device) ∈
        ([⟨42, "Elm St", "30.26", "-97.73", [7]⟩] : List Device) ∧
      (fun (_ : String) => ([] : List RawRow))
        (buildUrl ⟨42, "Elm St", "30.26", "-97.73", [7]⟩
          "01/06/2022" "02/06/2022") = []) ∧
    (get_count_data ⟨42, "Elm St", "30.26", "-97.73", [7]⟩
        ((fun (_ : String) => ([] : List RawRow))
          (buildUrl ⟨42, "Elm St", "30.26", "-97.73", [7]⟩
            "01/06/2022" "02/06/2022")) = .ok [] ∧
    ∀ rows, Event.readingsUpsert rows ∈
        (runMain (some "2022-06-01") (some "2022-06-02") ⟨⟨2030, 1, 1⟩, 0⟩
          [⟨42, "Elm St", "30.26", "-97.73", [7]⟩]
          (fun _ => [])).1 →
      ∀ r ∈ rows, r.sensorId ≠
        (⟨42, "Elm St", "30.26", "-97.73", [7]⟩ : Device).idPdc) :=
  ⟨⟨by decide, by decide, by decide, rfl⟩,
    c8_empty_response_skips_upsert (some "2022-06-01") (some "2022-06-02")
      ⟨⟨2030, 1, 1⟩, 0⟩ [⟨42, "Elm St", "30.26", "-97.73", [7]⟩] (fun _ => [])
      ⟨42, "Elm St", "30.26", "-97.73", [7]⟩ "01/06/2022" "02/06/2022"
      (by decide) (by decide) (by decide) rfl⟩

/-- C10: in a run that completes without error, a catalogued device's
readings are upserted iff its decoded response contains a strictly positive
count; in particular a non-empty response whose counts all coerce but are all
non-positive transforms to the empty table and is skipped exactly like an
empty response.  (Device ids taken pairwise distinct, as in C8.) -/
theorem c10_upsert_iff_positive (argS argE : Option String) (now : Instant)
    (catalog : List Device) (net : String → List RawRow) (d : Device)
    (sd ed : String)
    (hnodup : (catalog.map Device.idPdc).Nodup)
    (hdates : handle_date_args argS argE now = some (sd, ed))
    (hmem : d ∈ catalog)
    (hdone : (runMain argS argE now catalog net).2 = none) :
    ((∀ r ∈ net (buildUrl d sd ed), ∃ c, r.2 = some c ∧ c ≤ (0 : Int)) →
      get_count_data d (net (buildUrl d sd ed)) = .ok []) ∧
    ((∃ rows, Event.readingsUpsert rows ∈
        (runMain argS argE now catalog net).1 ∧
        ∃ r ∈ rows, r.sensorId = d.idPdc) ↔
      ∃ r ∈ net (buildUrl d sd ed), ∃ c, r.2 = some c ∧ (0 : Int) < c) := by
  have hloop2 : (runLoop net sd ed catalog).2 = none := by
    rw [runMain_dates_some hdates] at hdone
    exact hdone
  obtain ⟨rows0, hrows0, himp⟩ := runLoop_complete hloop2 d hmem
  cases hca : coerceAll (net (buildUrl d sd ed)) with
  | error msg =>
    rw [get_count_data_error hca] at hrows0
    exact absurd hrows0 (by simp)
  | ok typed =>
    have hchar := @get_count_data_char d _ _ hca
    rw [hchar] at hrows0
    rw [Except.ok.injEq] at hrows0
    constructor
    · intro hall
      rw [hchar]
      have hfil : typed.filter (fun r => 0 < r.2) = [] := by
        rw [List.filter_eq_nil_iff]
        intro p hp
        obtain ⟨c, hc, hcle⟩ := hall _ (coerceAll_mem_typed hca p hp)
        simp only [Option.some.injEq] at hc
        simp only [decide_eq_true_eq, not_lt]
        omega
      rw [hfil]
      rfl
    · constructor
      · rintro ⟨rows, hmem', r, hr, hsid⟩
        rw [runMain_dates_some hdates] at hmem'
        rcases List.mem_cons.mp hmem' with h | h
        · exact absurd h (by simp)
        · obtain ⟨d', hd', hok', hne⟩ := runLoop_upsert_mem h
          have hsid' := get_count_data_ok_sensorId hok' r hr
          have heq : d'.idPdc = d.idPdc := by rw [← hsid', hsid]
          have hdd : d' = d := List.inj_on_of_nodup_map hnodup hd' hmem heq
          subst hdd
          rw [hchar] at hok'
          rw [Except.ok.injEq] at hok'
          rw [← hok'] at hne
          have hfilne : typed.filter (fun r => 0 < r.2) ≠ [] := by
            intro h0
            rw [h0] at hne
            exact hne rfl
          obtain ⟨p, hp⟩ := List.exists_mem_of_ne_nil _ hfilne
          have hp' := List.mem_filter.mp hp
          obtain ⟨hpt, hppos⟩ := hp'
          refine ⟨(p.1, some p.2), coerceAll_mem_typed hca p hpt, p.2, rfl, ?_⟩
          simpa using hppos
      · rintro ⟨r, hrmem, c, hc, hpos⟩
        obtain ⟨c', hc', hct⟩ := coerceAll_mem_raw hca r hrmem
        rw [hc] at hc'
        rw [Option.some.injEq] at hc'
        subst hc'
        have hfil : (r.1, c) ∈ typed.filter (fun r => 0 < r.2) :=
          List.mem_filter.mpr ⟨hct, by simpa using hpos⟩
        have hrow : mkReading d (r.1, c) ∈ rows0 := by
          rw [← hrows0]
          exact List.mem_map_of_mem _ hfil
        have hrne : rows0 ≠ [] := List.ne_nil_of_mem hrow
        refine ⟨rows0, ?_, mkReading d (r.1, c), hrow, rfl⟩
        rw [runMain_dates_some hdates]
        exact List.mem_cons.mpr (Or.inr (himp hrne))

/-- Witness for C10: a completed one-device run whose response has one
positive and one zero count — an upsert with that sensor id occurs, matching
the positive-count row's existence. -/
theorem c10_witness :
    (((([⟨42, "Elm St", "30.26", "-97.73", [7]⟩] : List Device).map
        Device.idPdc).Nodup) ∧
      handle_date_args (some "2022-06-01") (some "2022-06-02")
        ⟨⟨2030, 1, 1⟩, 0⟩ = some ("01/06/2022", "02/06/2022") ∧
      (⟨42, "Elm St", "30.26", "-97.73", [7]⟩ : Device) ∈
        ([⟨42, "Elm St", "30.26", "-97.73", [7]⟩] : List Device) ∧
      (runMain (some "2022-06-01") (some "2022-06-02") ⟨⟨2030, 1, 1⟩, 0⟩
        [⟨42, "Elm St", "30.26", "-97.73", [7]⟩]
        (fun _ => [("01/06/2022", some 5), ("01/06/2022", some 0)])).2
        = none) ∧
    (((∀ r ∈ (fun (_ : String) =>
          ([("01/06/2022", some 5), ("01/06/2022", some 0)] : List RawRow))
          (buildUrl ⟨42, "Elm St", "30.26", "-97.73", [7]⟩
            "01/06/2022" "02/06/2022"),
        ∃ c, r.2 = some c ∧ c ≤ (0 : Int)) →
      get_count_data ⟨42, "Elm St", "30.26", "-97.73", [7]⟩
        ((fun (_ : String) =>
          ([("01/06/2022", some 5), ("01/06/2022", some 0)] : List RawRow))
          (buildUrl ⟨42, "Elm St", "30.26", "-97.73", [7]⟩
            "01/06/2022" "02/06/2022")) = .ok []) ∧
    ((∃ rows, Event.readingsUpsert rows ∈
        (runMain (some "2022-06-01") (some "2022-06-02") ⟨⟨2030, 1, 1⟩, 0⟩
          [⟨42, "Elm St", "30.26", "-97.73", [7]⟩]
          (fun _ => [("01/06/2022", some 5), ("01/06/2022", some 0)])).1 ∧
        ∃ r ∈ rows, r.sensorId =
          (⟨42, "Elm St", "30.26", "-97.73", [7]⟩ : Device).idPdc) ↔
      ∃ r ∈ (fun (_ : String) =>
          ([("01/06/2022", some 5), ("01/06/2022", some 0)] : List RawRow))
          (buildUrl ⟨42, "Elm St", "30.26", "-97.73", [7]⟩
            "01/06/2022" "02/06/2022"),
        ∃ c, r.2 = some c ∧ (0 : Int) < c)) :=
  ⟨⟨by decide, by decide, by decide, by decide⟩,
    c10_upsert_iff_positive (some "2022-06-01") (some "2022-06-02")
      ⟨⟨2030, 1, 1⟩, 0⟩ [⟨42, "Elm St", "30.26", "-97.73", [7]⟩]
      (fun _ => [("01/06/2022", some 5), ("01/06/2022", some 0)])
      ⟨42, "Elm St", "30.26", "-97.73", [7]⟩ "01/06/2022" "02/06/2022"
      (by decide) (by decide) (by decide) (by decide)⟩

end CounterData
